import Mathlib

/-!
Quotation server and client.

A shallow embedding of `server/server.go` and `client/client.go`.

Both programs are straight-line Go code around calls into the standard library
(`net/http`, `io`, `encoding/json`, `database/sql`, `os`, `log`).  Every such call is
embedded as a step of the `Go` state-and-panic monad below; what the outside world answers
(an error, a response, the value read from a byte string) is taken from an explicit
environment record, and what the program does to the outside world (log lines, the reply
handed to the `http.ResponseWriter`, statements sent to the database, files written) is
recorded in an explicit world state.
-/

namespace GoRuntime

/-- A Go `error` value, represented by its message. -/
abbrev GoError := String

/-- A Go `[]byte`. -/
abbrev Bytes := List UInt8

/-- The bytes of a Go string: its UTF-8 encoding. -/
def utf8 (text : String) : Bytes := text.toList.flatMap String.utf8EncodeChar

/-- How a Go call ends: it returns a value, or it panics with a value. -/
inductive Res (α : Type) where
  | ok (a : α)
  | panic (v : String)
  deriving Repr, DecidableEq

/-- A Go computation over a world `σ`: the world is kept when the computation panics,
since what was logged or written before the panic stays logged or written. -/
def Go (σ : Type) (α : Type) : Type := σ → Res α × σ

/-- Sequencing: a panic skips the rest of the function body. -/
def Go.bind {σ α β : Type} (m : Go σ α) (f : α → Go σ β) : Go σ β := fun s =>
  match m s with
  | (Res.ok a, s1) => f a s1
  | (Res.panic v, s1) => (Res.panic v, s1)

/-- Returning a value leaves the world alone. -/
def Go.pure {σ α : Type} (a : α) : Go σ α := fun s => (Res.ok a, s)

instance {σ : Type} : Monad (Go σ) where
  pure := Go.pure
  bind := Go.bind

/-- The builtin `panic(v)`. -/
def Go.panic {σ α : Type} (v : String) : Go σ α := fun s => (Res.panic v, s)

/-- A change of the world that cannot fail. -/
def Go.modify {σ : Type} (f : σ → σ) : Go σ Unit := fun s => (Res.ok (), f s)

/-- The statement `defer cleanup` followed by the rest of the function body: the deferred
call runs when the body returns and also when it panics, and the panic then continues. -/
def Go.deferring {σ α : Type} (cleanup : Go σ Unit) (body : Go σ α) : Go σ α := fun s =>
  match body s with
  | (r, s1) =>
    match cleanup s1 with
    | (Res.ok _, s2) => (r, s2)
    | (Res.panic v, s2) => (Res.panic v, s2)

/-- Whether a call ended by returning. -/
def Res.returned {α : Type} : Res α → Bool
  | Res.ok _ => true
  | Res.panic _ => false

end GoRuntime

namespace Json

/-- A JSON text as read by the scanner of `encoding/json`: string escapes are already
decoded, a number is kept as its literal. -/
inductive Value where
  | null
  | bool (b : Bool)
  | num (literal : String)
  | str (s : String)
  | arr (items : List Value)
  | obj (members : List (String × Value))

/-- The name `encoding/json` uses for the kind of a value in an `UnmarshalTypeError`. -/
def Value.kind : Value → String
  | Value.null => "null"
  | Value.bool _ => "bool"
  | Value.num _ => "number"
  | Value.str _ => "string"
  | Value.arr _ => "array"
  | Value.obj _ => "object"

/-- The rune folding of `encoding/json` (`foldRune`: the smallest rune of the simple-fold
orbit), restricted to the orbits that contain an ASCII rune: a lower-case ASCII letter
folds to its capital, the Kelvin sign U+212A to `K` and the long s U+017F to `S`.  All
other runes fold to non-ASCII runes and are left in place here, which does not change
whether a name folds to the same runes as an ASCII field name. -/
def foldRune (c : Char) : Char :=
  if 97 ≤ c.toNat ∧ c.toNat ≤ 122 then Char.ofNat (c.toNat - 32)
  else if c.toNat = 0x212A then 'K'
  else if c.toNat = 0x017F then 'S'
  else c

/-- The function `foldName` of `encoding/json`: two names match without regard to case
when they fold to the same runes. -/
def foldName (name : String) : List Char := name.toList.map foldRune

/-- The struct field a JSON member name selects: the field whose `json:"..."` tag is the
name, or else the one whose tag folds to the same runes. -/
def fieldIndex (tags : List String) (key : String) : Option Nat :=
  match tags.indexOf? key with
  | some i => some i
  | none => (tags.map foldName).indexOf? (foldName key)

/-- The method `saveError` of the decoder: only the first error is kept, and decoding goes on. -/
def saveError (saved : Option GoRuntime.GoError) (err : GoRuntime.GoError) :
    Option GoRuntime.GoError :=
  match saved with
  | some e => some e
  | none => some err

/-- The message of an `UnmarshalTypeError` for a value that does not fit its target, up to
the Go type the library names at the end of the message. -/
def typeError (v : Value) (target : String) : GoRuntime.GoError :=
  "json: cannot unmarshal " ++ v.kind ++ " into Go " ++ target

end Json

namespace Server

open GoRuntime Json

/-! ## Constants and types of `server/server.go` -/

/-- The constant `quotationApiUrl`. -/
def quotationApiUrl : String := "https://economia.awesomeapi.com.br/json/last/USD-BRL"

/-- The constant `apiRequestTimeout`, in milliseconds. -/
def apiRequestTimeout : Nat := 200

/-- The constant `dbSaveTimeout`, in milliseconds. -/
def dbSaveTimeout : Nat := 10

/-- The constant `fileDb`. -/
def fileDb : String := "./quotations.db"

/-- The anonymous struct type of the field `Usdbrl` of `Quotation`. -/
structure UsdbrlFields where
  Code : String := ""
  Codein : String := ""
  Name : String := ""
  High : String := ""
  Low : String := ""
  VarBid : String := ""
  PctChange : String := ""
  Bid : String := ""
  Ask : String := ""
  Timestamp : String := ""
  CreateDate : String := ""
  deriving Repr, DecidableEq

/-- The type `Quotation`; the default value is the Go zero value of `var quotation Quotation`. -/
structure Quotation where
  Usdbrl : UsdbrlFields := {}
  deriving Repr, DecidableEq

/-- The `json:"..."` tags of the eleven fields of `Usdbrl`, in declaration order. -/
def usdbrlTags : List String :=
  ["code", "codein", "name", "high", "low", "varBid", "pctChange", "bid", "ask",
   "timestamp", "create_date"]

/-- The `json:"..."` tag of the one field of `Quotation`. -/
def quotationTags : List String := ["USDBRL"]

/-- The field of `Usdbrl` at a position of the declaration. -/
def UsdbrlFields.get (u : UsdbrlFields) : Nat → String
  | 0 => u.Code
  | 1 => u.Codein
  | 2 => u.Name
  | 3 => u.High
  | 4 => u.Low
  | 5 => u.VarBid
  | 6 => u.PctChange
  | 7 => u.Bid
  | 8 => u.Ask
  | 9 => u.Timestamp
  | 10 => u.CreateDate
  | _ => ""

/-- Assignment to the field of `Usdbrl` at a position of the declaration. -/
def UsdbrlFields.set (u : UsdbrlFields) (i : Nat) (s : String) : UsdbrlFields :=
  match i with
  | 0 => { u with Code := s }
  | 1 => { u with Codein := s }
  | 2 => { u with Name := s }
  | 3 => { u with High := s }
  | 4 => { u with Low := s }
  | 5 => { u with VarBid := s }
  | 6 => { u with PctChange := s }
  | 7 => { u with Bid := s }
  | 8 => { u with Ask := s }
  | 9 => { u with Timestamp := s }
  | 10 => { u with CreateDate := s }
  | _ => u

/-! ## `json.Unmarshal(body, &quotation)`

The struct decoding of `encoding/json`, specialised to the two struct types declared in the
source: a member whose name selects no field is skipped, a `null` leaves the field as it
is, a value of the wrong kind is recorded as an `UnmarshalTypeError` and decoding goes on,
and a name that occurs twice is decoded twice, into the same field. -/

/-- One member of the object decoded into `Usdbrl`: every field is a Go `string`. -/
def decodeUsdbrlMember (st : UsdbrlFields × Option GoError) (kv : String × Value) :
    UsdbrlFields × Option GoError :=
  match fieldIndex usdbrlTags kv.1 with
  | none => st
  | some i =>
    match kv.2 with
    | Value.str s => (st.1.set i s, st.2)
    | Value.null => st
    | v => (st.1, saveError st.2 (typeError v ("struct field Quotation.USDBRL." ++ kv.1)))

/-- One member of the object decoded into `Quotation`: the one field is a struct. -/
def decodeQuotationMember (st : Quotation × Option GoError) (kv : String × Value) :
    Quotation × Option GoError :=
  match fieldIndex quotationTags kv.1 with
  | none => st
  | some _ =>
    match kv.2 with
    | Value.obj members =>
      let r := members.foldl decodeUsdbrlMember (st.1.Usdbrl, st.2)
      ({ Usdbrl := r.1 }, r.2)
    | Value.null => st
    | v => (st.1, saveError st.2 (typeError v "struct field Quotation.USDBRL"))

/-- The call `json.Unmarshal(data, &quotation)`. The argument `scan` stands for the scanner
of `encoding/json`: the value it reads from a byte string, `none` when the bytes are not
one valid JSON text, in which case nothing is decoded and a `SyntaxError` is returned
(one message stands for all of them). -/
def Unmarshal (scan : Bytes → Option Value) (data : Bytes) (quotation : Quotation) :
    Quotation × Option GoError :=
  match scan data with
  | none => (quotation, some "invalid character looking for beginning of value")
  | some (Value.obj members) => members.foldl decodeQuotationMember (quotation, none)
  | some Value.null => (quotation, none)
  | some v => (quotation, some (typeError v "value of type main.Quotation"))

/-- The members of the object under `"USDBRL"` in a payload of the documented shape
`{"USDBRL": {code, codein, name, high, low, varBid, pctChange, bid, ask, timestamp,
create_date}}`, all values text: the eleven strings of `u` under the eleven names. -/
def documentedMembers (u : UsdbrlFields) : List (String × Value) :=
  [("code", Value.str u.Code), ("codein", Value.str u.Codein), ("name", Value.str u.Name),
   ("high", Value.str u.High), ("low", Value.str u.Low), ("varBid", Value.str u.VarBid),
   ("pctChange", Value.str u.PctChange), ("bid", Value.str u.Bid), ("ask", Value.str u.Ask),
   ("timestamp", Value.str u.Timestamp), ("create_date", Value.str u.CreateDate)]

/-- A member that holds, under a name selecting a field, the string `u` has in that field. -/
def Carries (u : UsdbrlFields) (kv : String × Value) : Prop :=
  ∃ i, i < 11 ∧ fieldIndex usdbrlTags kv.1 = some i ∧ kv.2 = Value.str (u.get i)

/-! ## The database

The two SQL texts of the source, `createTable` and `insertQuery`, are transcribed into
statements with their parts named; a database is the list of its tables and of the rows
inserted, each row holding the values bound to its columns. -/

/-- One column definition of a `CREATE TABLE` statement. -/
structure Column where
  name : String
  type : String
  notNull : Bool
  primaryKey : Bool := false
  autoincrement : Bool := false
  deriving Repr, DecidableEq

/-- A table definition: the name and the column definitions, in order. -/
structure Table where
  name : String
  columns : List Column
  deriving Repr, DecidableEq

/-- The two forms of SQL statement the source contains. -/
inductive Statement where
  | createTableIfNotExists (table : Table)
  | insertInto (table : String) (columns : List String) (placeholders : Nat)
  deriving Repr, DecidableEq

/-- The constant `createTable`:
`CREATE TABLE IF NOT EXISTS quotations (ID INTEGER NOT NULL PRIMARY KEY AUTOINCREMENT,
Code TEXT NOT NULL, Codein TEXT NOT NULL, Name TEXT NOT NULL, High FLOAT NOT NULL,
Low FLOAT NOT NULL, VarBid FLOAT NOT NULL, PctChange FLOAT NOT NULL, Bid FLOAT NOT NULL,
Ask FLOAT NOT NULL, Timestamp TIMESTAMP NOT NULL, CreateDate DATETIME NOT NULL);` -/
def createTable : Statement :=
  Statement.createTableIfNotExists
    { name := "quotations"
      columns :=
        [ { name := "ID", type := "INTEGER", notNull := true, primaryKey := true,
            autoincrement := true },
          { name := "Code", type := "TEXT", notNull := true },
          { name := "Codein", type := "TEXT", notNull := true },
          { name := "Name", type := "TEXT", notNull := true },
          { name := "High", type := "FLOAT", notNull := true },
          { name := "Low", type := "FLOAT", notNull := true },
          { name := "VarBid", type := "FLOAT", notNull := true },
          { name := "PctChange", type := "FLOAT", notNull := true },
          { name := "Bid", type := "FLOAT", notNull := true },
          { name := "Ask", type := "FLOAT", notNull := true },
          { name := "Timestamp", type := "TIMESTAMP", notNull := true },
          { name := "CreateDate", type := "DATETIME", notNull := true } ] }

/-- The constant `insertQuery`:
`INSERT INTO quotations (Code, Codein, Name, High, Low, VarBid, PctChange, Bid, Ask,
Timestamp, CreateDate) VALUES (?, ?, ?, ?, ?, ?, ?, ?, ?, ?, ?);` -/
def insertQuery : Statement :=
  Statement.insertInto "quotations"
    ["Code", "Codein", "Name", "High", "Low", "VarBid", "PctChange", "Bid", "Ask",
     "Timestamp", "CreateDate"] 11

/-- SQL identifiers are compared without regard to ASCII case. -/
def sqlName (name : String) : List Char :=
  name.toList.map (fun c => if 65 ≤ c.toNat ∧ c.toNat ≤ 90 then Char.ofNat (c.toNat + 32) else c)

/-- An inserted row: the table, and the value bound to each named column, the i-th
placeholder taking the i-th argument. The row identifier the store assigns and the
conversion a column type applies to a stored value are not part of the row. -/
structure Row where
  table : String
  values : List (String × String)
  deriving Repr, DecidableEq

/-- The database file: its tables and the rows inserted so far. -/
structure Database where
  tables : List Table := []
  rows : List Row := []
  deriving Repr, DecidableEq

/-- What a statement that succeeds does to the database. -/
def Database.exec (db : Database) (query : Statement) (args : List String) : Database :=
  match query with
  | Statement.createTableIfNotExists t =>
    if db.tables.any (fun x => sqlName x.name = sqlName t.name) then db
    else { db with tables := db.tables ++ [t] }
  | Statement.insertInto table columns _ =>
    { db with rows := db.rows ++ [{ table := table, values := columns.zip args }] }

/-- The column list of an `INSERT` statement. -/
def Statement.insertColumns : Statement → List String
  | Statement.insertInto _ columns _ => columns
  | Statement.createTableIfNotExists _ => []

/-! ## The world of the server -/

/-- The reply handed to an `http.ResponseWriter`: the status code once the header is
written, and the bytes passed to `Write`. -/
structure ResponseWriter where
  status : Option Nat := none
  body : Bytes := []
  deriving Repr, DecidableEq

/-- Everything the server acts on. -/
structure World where
  /-- the lines written through package `log`, without the time stamp -/
  log : List String := []
  /-- the paths that exist in the file system -/
  files : List String := []
  /-- the content of the database file -/
  db : Database := {}
  /-- the statements sent to the database, with their arguments, in order -/
  issued : List (Statement × List String) := []
  /-- the writer of the request being handled -/
  w : ResponseWriter := {}
  /-- the replies of the requests handled so far -/
  replies : List ResponseWriter := []
  deriving Repr, DecidableEq

/-- An answer of the upstream API as `http.DefaultClient.Do` returns it. -/
structure UpstreamResponse where
  /-- the field `StatusCode` -/
  statusCode : Nat
  /-- what `io.ReadAll(res.Body)` returns when the deadline allows it -/
  read : Except GoError Bytes
  /-- the time reading the body takes, in milliseconds -/
  readElapsed : Nat := 0
  /-- what `res.Body.Close()` returns -/
  closeErr : Option GoError := none

/-- What the outside world answers during one run of `getQuotationHandler`. -/
structure HandlerEnv where
  /-- the error of `http.NewRequestWithContext` -/
  newRequestErr : Option GoError := none
  /-- the time until the upstream API has answered, in milliseconds -/
  fetchElapsed : Nat := 0
  /-- what the transport returns when the deadline allows it -/
  transport : Except GoError UpstreamResponse
  /-- the scanner of `encoding/json` -/
  scan : Bytes → Option Value
  /-- the error of `sql.Open` -/
  openErr : Option GoError := none
  /-- the time the insert takes, in milliseconds -/
  insertElapsed : Nat := 0
  /-- the error of the insert when the deadline allows it -/
  insertFault : Option GoError := none
  /-- what `db.Close()` returns -/
  dbCloseErr : Option GoError := none
  /-- what `w.Write(body)` returns as its error -/
  writeErr : Option GoError := none

/-- What the outside world answers during start-up. -/
structure StartupEnv where
  /-- the error of `os.Create(fileDb)` -/
  createFileErr : Option GoError := none
  /-- the error of `sql.Open` -/
  openErr : Option GoError := none
  /-- the error of `db.Exec(createTable)` -/
  createTableErr : Option GoError := none
  /-- what `db.Close()` returns -/
  dbCloseErr : Option GoError := none
  /-- the error `http.ListenAndServe` returns when it cannot listen, `none` when it serves -/
  listenErr : Option GoError := none

/-- The error of a call cut short by the deadline of its context; the library wraps
`context.DeadlineExceeded` in an error of its own, which is not spelled out. -/
def deadlineExceeded : GoError := "context deadline exceeded"

/-! ## Library calls of the server -/

/-- The call `log.Println(line)`. -/
def Println (line : String) : Go World Unit :=
  Go.modify (fun s => { s with log := s.log ++ [line] })

/-- The call `http.DefaultClient.Do(req)` on a request bound to a context of
`apiRequestTimeout`: a call that has not answered when the deadline arrives is aborted. -/
def Do (env : HandlerEnv) : Except GoError UpstreamResponse :=
  if apiRequestTimeout ≤ env.fetchElapsed then Except.error deadlineExceeded
  else env.transport

/-- The call `io.ReadAll(res.Body)`: the body is read under the context of the request,
so the same deadline aborts the read. -/
def ReadAll (env : HandlerEnv) (res : UpstreamResponse) : Except GoError Bytes :=
  if apiRequestTimeout ≤ env.fetchElapsed + res.readElapsed then Except.error deadlineExceeded
  else res.read

/-- The error of `db.ExecContext(ctx, insertQuery, ...)` under a context of `dbSaveTimeout`. -/
def insertResult (env : HandlerEnv) : Option GoError :=
  if dbSaveTimeout ≤ env.insertElapsed then some deadlineExceeded
  else env.insertFault

/-- The calls `db.Exec` and `db.ExecContext`: the statement is sent to the database, which
carries it out unless the call ends in an error. -/
def Exec (result : Option GoError) (query : Statement) (args : List String) :
    Go World (Option GoError) := fun s =>
  match result with
  | some e => (Res.ok (some e), { s with issued := s.issued ++ [(query, args)] })
  | none =>
    (Res.ok none,
      { s with issued := s.issued ++ [(query, args)], db := s.db.exec query args })

/-- The calls `db.Close()` and `res.Body.Close()` in a `defer` statement: the error they
return goes nowhere. -/
def Close (_result : Option GoError) : Go World Unit := Go.pure ()

/-- The call `w.Write(b)`: the first write sets the status to 200 when no header was
written before, and the bytes are added to the reply.  The reply records what the handler
hands to the writer; `result` is the error the connection reports back. -/
def Write (result : Option GoError) (b : Bytes) : Go World (Option GoError) := fun s =>
  (Res.ok result,
    { s with w := { status := some (s.w.status.getD 200), body := s.w.body ++ b } })

/-- The call `os.Stat(path)` followed by `os.IsNotExist(err)`; the source looks at no other
error of `os.Stat`. -/
def statIsNotExist (path : String) : Go World Bool := fun s =>
  (Res.ok (!(s.files.contains path)), s)

/-- The call `os.Create(path)`. -/
def Create (result : Option GoError) (path : String) : Go World (Option GoError) := fun s =>
  match result with
  | some e => (Res.ok (some e), s)
  | none =>
    (Res.ok none,
      { s with files := if s.files.contains path then s.files else path :: s.files })

/-! ## The functions of `server/server.go` -/

/-- The function `checkError`: `log.Panicln(err)` logs the error and panics with it. -/
def checkError (err : Option GoError) : Go World Unit :=
  match err with
  | some e => do
    Println e
    Go.panic e
  | none => pure ()

/-- The function `createQuotationTable`. -/
def createQuotationTable (env : StartupEnv) : Go World Unit := do
  -- db, err := openDatabase()
  checkError env.openErr
  -- defer db.Close()
  Go.deferring (Close env.dbCloseErr) do
    -- _, err = db.Exec(createTable)
    let err ← Exec env.createTableErr createTable []
    checkError err

/-- The function `initDatabase`. -/
def initDatabase (env : StartupEnv) : Go World Unit := do
  -- _, err := os.Stat(fileDb); if os.IsNotExist(err)
  let notExist ← statIsNotExist fileDb
  if notExist then
    -- _, err := os.Create(fileDb)
    let err ← Create env.createFileErr fileDb
    checkError err
  createQuotationTable env

/-- The function `saveQuotation`. -/
def saveQuotation (env : HandlerEnv) (c : Quotation) : Go World Unit := do
  -- db, err := openDatabase()
  checkError env.openErr
  -- defer db.Close()
  Go.deferring (Close env.dbCloseErr) do
    -- ctx, cancel := context.WithTimeout(context.Background(), dbSaveTimeout)
    -- _, err = db.ExecContext(ctx, insertQuery, c.Usdbrl.Code, ..., c.Usdbrl.CreateDate)
    let err ← Exec (insertResult env) insertQuery
      [c.Usdbrl.Code, c.Usdbrl.Codein, c.Usdbrl.Name, c.Usdbrl.High, c.Usdbrl.Low,
       c.Usdbrl.VarBid, c.Usdbrl.PctChange, c.Usdbrl.Bid, c.Usdbrl.Ask, c.Usdbrl.Timestamp,
       c.Usdbrl.CreateDate]
    checkError err

/-- The function `getQuotationHandler`. -/
def getQuotationHandler (env : HandlerEnv) : Go World Unit := do
  Println "Request init"
  -- defer log.Println("Request end")
  Go.deferring (Println "Request end") do
    -- ctx, cancel := context.WithTimeout(context.Background(), apiRequestTimeout)
    -- req, err := http.NewRequestWithContext(ctx, "GET", quotationApiUrl, nil)
    checkError env.newRequestErr
    -- res, err := http.DefaultClient.Do(req)
    match Do env with
    | Except.error e => checkError (some e)
    | Except.ok res =>
      -- defer res.Body.Close()
      Go.deferring (Close res.closeErr) do
        -- body, err := io.ReadAll(res.Body)
        match ReadAll env res with
        | Except.error e => checkError (some e)
        | Except.ok body =>
          -- var quotation Quotation; err = json.Unmarshal(body, &quotation)
          let decoded := Unmarshal env.scan body {}
          checkError decoded.2
          saveQuotation env decoded.1
          -- w.Write(body), both results dropped
          let _ ← Write env.writeErr body
          pure ()

/-- One request served by `net/http`: the handler runs on a fresh writer; when it returns,
the reply is sent, with status 200 if no header was written; a panic of the handler is
recovered by the library, which logs it and closes the connection. -/
def serveRequest (env : HandlerEnv) : Go World Unit := fun s =>
  match getQuotationHandler env { s with w := {} } with
  | (Res.ok _, s1) =>
    (Res.ok (),
      { s1 with replies := s1.replies ++ [{ s1.w with status := some (s1.w.status.getD 200) }] })
  | (Res.panic v, s1) =>
    (Res.ok (),
      { s1 with log := s1.log ++ ["http: panic serving: " ++ v],
                replies := s1.replies ++ [s1.w] })

/-- The requests to `/cotacao` served one after the other. -/
def serve : List HandlerEnv → Go World Unit
  | [] => pure ()
  | env :: rest => do
    serveRequest env
    serve rest

/-- The function `initWebServer`: the handler is registered and `http.ListenAndServe` is
called as a statement, so the error it returns goes nowhere. The list holds the requests
that arrive while the server listens. -/
def initWebServer (env : StartupEnv) (requests : List HandlerEnv) : Go World Unit :=
  match env.listenErr with
  | some _ => pure ()
  | none => serve requests

/-- The function `main`. -/
def main (env : StartupEnv) (requests : List HandlerEnv) : Go World Unit := do
  initDatabase env
  initWebServer env requests

end Server

namespace Client

open GoRuntime Json

/-! ## Constants and types of `client/client.go` -/

/-- The constant `resultFileName`. -/
def resultFileName : String := "cotacao.txt"

/-- The constant `requestTimeout`, in milliseconds. -/
def requestTimeout : Nat := 300

/-- The constant `apiUrl`. -/
def apiUrl : String := "http://localhost:8080/cotacao"

/-- The anonymous struct type of the field `Usdbrl` of the client `Quotation`. -/
structure UsdbrlFields where
  Bid : String := ""
  deriving Repr, DecidableEq

/-- The type `Quotation` of the client. -/
structure Quotation where
  Usdbrl : UsdbrlFields := {}
  deriving Repr, DecidableEq

/-- The `json:"..."` tag of the one field of `Usdbrl`. -/
def usdbrlTags : List String := ["bid"]

/-- The `json:"..."` tag of the one field of `Quotation`. -/
def quotationTags : List String := ["USDBRL"]

/-- One member of the object decoded into `Usdbrl`. -/
def decodeUsdbrlMember (st : UsdbrlFields × Option GoError) (kv : String × Value) :
    UsdbrlFields × Option GoError :=
  match fieldIndex usdbrlTags kv.1 with
  | none => st
  | some _ =>
    match kv.2 with
    | Value.str s => ({ Bid := s }, st.2)
    | Value.null => st
    | v => (st.1, saveError st.2 (typeError v ("struct field Quotation.USDBRL." ++ kv.1)))

/-- One member of the object decoded into `Quotation`. -/
def decodeQuotationMember (st : Quotation × Option GoError) (kv : String × Value) :
    Quotation × Option GoError :=
  match fieldIndex quotationTags kv.1 with
  | none => st
  | some _ =>
    match kv.2 with
    | Value.obj members =>
      let r := members.foldl decodeUsdbrlMember (st.1.Usdbrl, st.2)
      ({ Usdbrl := r.1 }, r.2)
    | Value.null => st
    | v => (st.1, saveError st.2 (typeError v "struct field Quotation.USDBRL"))

/-- The call `json.Unmarshal(data, &quotation)` of the client. -/
def Unmarshal (scan : Bytes → Option Value) (data : Bytes) (quotation : Quotation) :
    Quotation × Option GoError :=
  match scan data with
  | none => (quotation, some "invalid character looking for beginning of value")
  | some (Value.obj members) => members.foldl decodeQuotationMember (quotation, none)
  | some Value.null => (quotation, none)
  | some v => (quotation, some (typeError v "value of type main.Quotation"))

/-! ## The world of the client -/

/-- Everything the client acts on. -/
structure World where
  /-- the lines written through package `log`, without the time stamp -/
  log : List String := []
  /-- the file system: the bytes of the file at a path, `none` when there is no file -/
  files : String → Option Bytes := fun _ => none

/-- An open file, `*os.File`: the path it was opened at and the offset of the next write. -/
structure File where
  path : String
  offset : Nat := 0
  deriving Repr, DecidableEq

/-- An answer of the server as `http.DefaultClient.Do` returns it. -/
structure ServerResponse where
  /-- the field `StatusCode` -/
  statusCode : Nat
  /-- what `io.ReadAll(res.Body)` returns when the deadline allows it -/
  read : Except GoError Bytes
  /-- the time reading the body takes, in milliseconds -/
  readElapsed : Nat := 0
  /-- what `res.Body.Close()` returns -/
  closeErr : Option GoError := none

/-- What the outside world answers during one run of the client. -/
structure Env where
  /-- the error of `http.NewRequestWithContext` -/
  newRequestErr : Option GoError := none
  /-- the time until the server has answered, in milliseconds -/
  callElapsed : Nat := 0
  /-- what the transport returns when the deadline allows it -/
  transport : Except GoError ServerResponse
  /-- the scanner of `encoding/json` -/
  scan : Bytes → Option Value
  /-- the error of `os.Create(resultFileName)` -/
  createErr : Option GoError := none
  /-- the failure of `f.WriteString`: how many bytes were written before the error -/
  writeFault : Option (Nat × GoError) := none
  /-- what `f.Close()` returns -/
  fileCloseErr : Option GoError := none

/-- The error of a call cut short by the deadline of its context; the library wraps
`context.DeadlineExceeded` in an error of its own, which is not spelled out. -/
def deadlineExceeded : GoError := "context deadline exceeded"

/-! ## Library calls of the client -/

/-- The call `log.Println(line)`. -/
def Println (line : String) : Go World Unit :=
  Go.modify (fun s => { s with log := s.log ++ [line] })

/-- The call `http.DefaultClient.Do(req)` on a request bound to a context of
`requestTimeout`. -/
def Do (env : Env) : Except GoError ServerResponse :=
  if requestTimeout ≤ env.callElapsed then Except.error deadlineExceeded
  else env.transport

/-- The call `io.ReadAll(res.Body)` under the same context. -/
def ReadAll (env : Env) (res : ServerResponse) : Except GoError Bytes :=
  if requestTimeout ≤ env.callElapsed + res.readElapsed then Except.error deadlineExceeded
  else res.read

/-- The file system with the file at one path replaced. -/
def writeFile (files : String → Option Bytes) (path : String) (content : Bytes) :
    String → Option Bytes :=
  fun p => if p = path then some content else files p

/-- The bytes of a file after `data` is written at an offset: what lies before the offset
stays (a gap beyond the old end reads as zeros), the bytes under the write are replaced,
and what lies behind the write stays too. -/
def writeAt (old : Bytes) (offset : Nat) (data : Bytes) : Bytes :=
  old.take offset ++ List.replicate (offset - old.length) 0 ++ data ++
    old.drop (offset + data.length)

/-- The call `os.Create(path)`: the file is created, or truncated to no bytes when it
exists, and opened at offset 0. -/
def Create (result : Option GoError) (path : String) : Go World (Except GoError File) :=
  fun s =>
    match result with
    | some e => (Res.ok (Except.error e), s)
    | none =>
      (Res.ok (Except.ok { path := path, offset := 0 }),
        { s with files := writeFile s.files path [] })

/-- The call `f.WriteString(text)`: the bytes of the text are written into the file at the
offset of the handle, all of them, or the first of them when the call fails.  The file keeps
every byte the write does not cover. -/
def WriteString (fault : Option (Nat × GoError)) (f : File) (text : String) :
    Go World (Option GoError) := fun s =>
  let old := (s.files f.path).getD []
  match fault with
  | some (n, e) =>
    let content := writeAt old f.offset ((utf8 text).take n)
    (Res.ok (some e), { s with files := writeFile s.files f.path content })
  | none =>
    let content := writeAt old f.offset (utf8 text)
    (Res.ok none, { s with files := writeFile s.files f.path content })

/-- The calls `f.Close()` and `res.Body.Close()` in a `defer` statement: the error they
return goes nowhere. -/
def Close (_result : Option GoError) : Go World Unit := Go.pure ()

/-- The call `fmt.Sprintf("Dólar: {%s}", bid)`. -/
def Sprintf (bid : String) : String := "Dólar: \x7b" ++ bid ++ "\x7d"

/-! ## The functions of `client/client.go` -/

/-- The function `checkError`: `log.Panicln(err)` logs the error and panics with it. -/
def checkError (err : Option GoError) : Go World Unit :=
  match err with
  | some e => do
    Println e
    Go.panic e
  | none => pure ()

/-- The function `saveInFile`. -/
def saveInFile (env : Env) (q : Quotation) : Go World Unit := do
  -- f, err := os.Create(resultFileName)
  let created ← Create env.createErr resultFileName
  match created with
  | Except.error e => checkError (some e)
  | Except.ok f =>
    -- defer f.Close()
    Go.deferring (Close env.fileCloseErr) do
      -- _, err = f.WriteString(fmt.Sprintf(..., q.Usdbrl.Bid))
      let err ← WriteString env.writeFault f (Sprintf q.Usdbrl.Bid)
      checkError err

/-- The function `main`. -/
def main (env : Env) : Go World Unit := do
  -- ctx, cancel := context.WithTimeout(context.Background(), requestTimeout)
  -- req, err := http.NewRequestWithContext(ctx, "GET", apiUrl, nil)
  checkError env.newRequestErr
  -- res, err := http.DefaultClient.Do(req)
  match Do env with
  | Except.error e => checkError (some e)
  | Except.ok res =>
    -- defer res.Body.Close()
    Go.deferring (Close res.closeErr) do
      -- body, err := io.ReadAll(res.Body)
      match ReadAll env res with
      | Except.error e => checkError (some e)
      | Except.ok body =>
        -- var quotation Quotation; err = json.Unmarshal(body, &quotation)
        let decoded := Unmarshal env.scan body {}
        checkError decoded.2
        saveInFile env decoded.1

end Client

/-! # Sample inputs -/

namespace Samples

open GoRuntime Json

/-- The bytes of an ASCII text. -/
def ascii (text : String) : Bytes := text.toList.map (fun c => UInt8.ofNat c.toNat)

/-- A scanner that knows one JSON text: it reads `value` from the bytes `text` and
rejects every other byte string. -/
def scanOnly (text : Bytes) (value : Value) : Bytes → Option Value :=
  fun data => if data = text then some value else none

/-- The body `{"USDBRL":{"bid":"5.43"}}`. -/
def bidBody : Bytes := ascii "\x7b\x22USDBRL\x22:\x7b\x22bid\x22:\x225.43\x22\x7d\x7d"

/-- The value of `bidBody`. -/
def bidValue : Value := Value.obj [("USDBRL", Value.obj [("bid", Value.str "5.43")])]

/-- An upstream answer `200` with the body `bidBody`. -/
def bidResponse : Server.UpstreamResponse := { statusCode := 200, read := Except.ok bidBody }

/-- A request during which the upstream API answers `bidBody` after 50ms and the insert
takes 2ms. -/
def goodRequest : Server.HandlerEnv :=
  { fetchElapsed := 50, transport := Except.ok bidResponse, scan := scanOnly bidBody bidValue,
    insertElapsed := 2 }

/-- The same request with an insert that takes 15ms, beyond `dbSaveTimeout`. -/
def slowInsertRequest : Server.HandlerEnv := { goodRequest with insertElapsed := 15 }

/-- The same request with an upstream API that needs 250ms, beyond `apiRequestTimeout`. -/
def slowUpstreamRequest : Server.HandlerEnv := { goodRequest with fetchElapsed := 250 }

/-- A request during which the upstream API answers after 150ms and the body needs another
100ms, so that the deadline of `apiRequestTimeout` arrives while the body is read. -/
def lateBodyRequest : Server.HandlerEnv :=
  { goodRequest with
    fetchElapsed := 150
    transport := Except.ok { bidResponse with readElapsed := 100 } }

/-- The record decoded from `bidBody`. -/
def bidQuotation : Server.Quotation := { Usdbrl := { Bid := "5.43" } }

/-- A payload of the documented shape, as the upstream API sends it. -/
def fullRecord : Server.UsdbrlFields :=
  { Code := "USD", Codein := "BRL", Name := "Dollar/Real", High := "5.4531", Low := "5.4094",
    VarBid := "0.0211", PctChange := "0.39", Bid := "5.43", Ask := "5.4312",
    Timestamp := "1700000000", CreateDate := "2023-11-14 19:13:20" }

/-- The bytes of the payload of `fullRecord`, with the members in reverse order. -/
def fullBody : Bytes :=
  ascii ("\x7b\x22USDBRL\x22:\x7b\x22create_date\x22:\x222023-11-14 19:13:20\x22," ++
    "\x22timestamp\x22:\x221700000000\x22,\x22ask\x22:\x225.4312\x22," ++
    "\x22bid\x22:\x225.43\x22,\x22pctChange\x22:\x220.39\x22," ++
    "\x22varBid\x22:\x220.0211\x22,\x22low\x22:\x225.4094\x22," ++
    "\x22high\x22:\x225.4531\x22,\x22name\x22:\x22Dollar/Real\x22," ++
    "\x22codein\x22:\x22BRL\x22,\x22code\x22:\x22USD\x22\x7d\x7d")

/-- The value of `fullBody`. -/
def fullValue : Value :=
  Value.obj [("USDBRL", Value.obj (Server.documentedMembers fullRecord).reverse)]

/-- The body `{"usdbrl":{"bid":"5.43"}}`: the member name is in lower case. -/
def lowerCaseBody : Bytes := ascii "\x7b\x22usdbrl\x22:\x7b\x22bid\x22:\x225.43\x22\x7d\x7d"

/-- The members of the value of `lowerCaseBody`. -/
def lowerCaseMembers : List (String × Value) :=
  [("usdbrl", Value.obj [("bid", Value.str "5.43")])]

/-- A request during which the upstream API answers `lowerCaseBody`. -/
def lowerCaseRequest : Server.HandlerEnv :=
  { fetchElapsed := 50,
    transport := Except.ok { statusCode := 200, read := Except.ok lowerCaseBody },
    scan := scanOnly lowerCaseBody (Value.obj lowerCaseMembers), insertElapsed := 2 }

/-- The body `{"usdbrl":5}`. -/
def lowerCaseNumberBody : Bytes := ascii "\x7b\x22usdbrl\x22:5\x7d"

/-- The members of the value of `lowerCaseNumberBody`. -/
def lowerCaseNumberMembers : List (String × Value) := [("usdbrl", Value.num "5")]

/-- A request during which the upstream API answers `lowerCaseNumberBody`. -/
def lowerCaseNumberRequest : Server.HandlerEnv :=
  { fetchElapsed := 50,
    transport := Except.ok { statusCode := 200, read := Except.ok lowerCaseNumberBody },
    scan := scanOnly lowerCaseNumberBody (Value.obj lowerCaseNumberMembers),
    insertElapsed := 2 }

/-- The body `{}`. -/
def emptyObjectBody : Bytes := ascii "\x7b\x7d"

/-- An upstream answer `404` with the body `{}`. -/
def emptyObjectResponse : Server.UpstreamResponse :=
  { statusCode := 404, read := Except.ok emptyObjectBody }

/-- A request during which the upstream API answers `404` with the body `{}`. -/
def emptyObjectRequest : Server.HandlerEnv :=
  { fetchElapsed := 50, transport := Except.ok emptyObjectResponse,
    scan := scanOnly emptyObjectBody (Value.obj []), insertElapsed := 2 }

/-- The same request with an insert that takes 15ms, beyond `dbSaveTimeout`. -/
def emptyObjectSlowInsertRequest : Server.HandlerEnv :=
  { emptyObjectRequest with insertElapsed := 15 }

/-- An answer `200` of the server with the body `bidBody`. -/
def serverResponse : Client.ServerResponse := { statusCode := 200, read := Except.ok bidBody }

/-- A run of the client during which the server answers `bidBody` after 40ms. -/
def goodRun : Client.Env :=
  { callElapsed := 40, transport := Except.ok serverResponse, scan := scanOnly bidBody bidValue }

/-- A run of the client during which the server needs 500ms, beyond `requestTimeout`. -/
def slowServerRun : Client.Env := { goodRun with callElapsed := 500 }

/-- A run of the client during which the server answers after 200ms and the body needs
another 150ms, so that the deadline of `requestTimeout` arrives while the body is read. -/
def lateBodyRun : Client.Env :=
  { goodRun with
    callElapsed := 200
    transport := Except.ok { serverResponse with readElapsed := 150 } }

/-- A file system in which `cotacao.txt` holds the longer line of an earlier run. -/
def oldArtifact : Client.World :=
  { files := fun p => if p = "cotacao.txt" then some (utf8 "Dólar: \x7b5.1025\x7d") else none }

end Samples

/-! # The server: one run of `getQuotationHandler` -/

namespace Server

open GoRuntime Json

/-- The run of the handler when the upstream call fails. -/
theorem handler_run_of_fetch_error (env : HandlerEnv) (s : World) (e : GoError)
    (hreq : env.newRequestErr = none) (hdo : Do env = Except.error e) :
    getQuotationHandler env s =
      (Res.panic e, { s with log := s.log ++ ["Request init", e, "Request end"] }) := by
  simp [getQuotationHandler, checkError, Println, Go.deferring, Go.modify, Go.pure, Go.panic,
    Bind.bind, Go.bind, Pure.pure, hreq, hdo]

/-- The run of the handler when the upstream API answers and reading the body fails. -/
theorem handler_run_of_read_error (env : HandlerEnv) (s : World) (res : UpstreamResponse)
    (e : GoError) (hreq : env.newRequestErr = none) (hdo : Do env = Except.ok res)
    (hread : ReadAll env res = Except.error e) :
    getQuotationHandler env s =
      (Res.panic e, { s with log := s.log ++ ["Request init", e, "Request end"] }) := by
  simp [getQuotationHandler, checkError, Println, Close, Go.deferring, Go.modify, Go.pure,
    Go.panic, Bind.bind, Go.bind, Pure.pure, hreq, hdo, hread]

/-- The run of the handler when fetch and decode succeed and the insert fails. -/
theorem handler_run_of_insert_error (env : HandlerEnv) (s : World) (res : UpstreamResponse)
    (body : Bytes) (q : Quotation) (e : GoError)
    (hreq : env.newRequestErr = none) (hdo : Do env = Except.ok res)
    (hread : ReadAll env res = Except.ok body)
    (hdec : Unmarshal env.scan body {} = (q, none))
    (hopen : env.openErr = none) (hins : insertResult env = some e) :
    getQuotationHandler env s =
      (Res.panic e,
        { s with
          log := s.log ++ ["Request init", e, "Request end"]
          issued := s.issued ++ [(insertQuery,
            [q.Usdbrl.Code, q.Usdbrl.Codein, q.Usdbrl.Name, q.Usdbrl.High, q.Usdbrl.Low,
             q.Usdbrl.VarBid, q.Usdbrl.PctChange, q.Usdbrl.Bid, q.Usdbrl.Ask,
             q.Usdbrl.Timestamp, q.Usdbrl.CreateDate])] }) := by
  simp [getQuotationHandler, saveQuotation, checkError, Println, Write, Exec, Close,
    Go.deferring, Go.modify, Go.pure, Go.panic, Bind.bind, Go.bind, Pure.pure,
    hreq, hdo, hread, hdec, hopen, hins]

/-- The run of the handler when fetch, decode and insert all succeed. -/
theorem handler_run_of_success (env : HandlerEnv) (s : World) (res : UpstreamResponse)
    (body : Bytes) (q : Quotation)
    (hreq : env.newRequestErr = none) (hdo : Do env = Except.ok res)
    (hread : ReadAll env res = Except.ok body)
    (hdec : Unmarshal env.scan body {} = (q, none))
    (hopen : env.openErr = none) (hins : insertResult env = none) :
    getQuotationHandler env s =
      (Res.ok (),
        { s with
          log := s.log ++ ["Request init", "Request end"]
          issued := s.issued ++ [(insertQuery,
            [q.Usdbrl.Code, q.Usdbrl.Codein, q.Usdbrl.Name, q.Usdbrl.High, q.Usdbrl.Low,
             q.Usdbrl.VarBid, q.Usdbrl.PctChange, q.Usdbrl.Bid, q.Usdbrl.Ask,
             q.Usdbrl.Timestamp, q.Usdbrl.CreateDate])]
          db := s.db.exec insertQuery
            [q.Usdbrl.Code, q.Usdbrl.Codein, q.Usdbrl.Name, q.Usdbrl.High, q.Usdbrl.Low,
             q.Usdbrl.VarBid, q.Usdbrl.PctChange, q.Usdbrl.Bid, q.Usdbrl.Ask,
             q.Usdbrl.Timestamp, q.Usdbrl.CreateDate]
          w := { status := some (s.w.status.getD 200), body := s.w.body ++ body } }) := by
  simp [getQuotationHandler, saveQuotation, checkError, Println, Write, Exec, Close,
    Go.deferring, Go.modify, Go.pure, Go.panic, Bind.bind, Go.bind, Pure.pure,
    hreq, hdo, hread, hdec, hopen, hins]

/-- Claim C1, as stated, fails: during `Samples.slowInsertRequest` the upstream call and
the decoding succeed and the insert misses its 10ms deadline; the handler panics, and the
reply has neither the status 200 nor the upstream body. -/
theorem C1_counterexample :
    Do Samples.slowInsertRequest = Except.ok Samples.bidResponse ∧
    ReadAll Samples.slowInsertRequest Samples.bidResponse = Except.ok Samples.bidBody ∧
    Unmarshal Samples.slowInsertRequest.scan Samples.bidBody {} =
      (Samples.bidQuotation, none) ∧
    insertResult Samples.slowInsertRequest = some deadlineExceeded ∧
    (getQuotationHandler Samples.slowInsertRequest {}).1 = Res.panic deadlineExceeded ∧
    (getQuotationHandler Samples.slowInsertRequest {}).2.w.status ≠ some 200 ∧
    (getQuotationHandler Samples.slowInsertRequest {}).2.w.body ≠ Samples.bidBody := by
  refine ⟨rfl, rfl, by decide, by decide, by decide, by decide, by decide⟩

/-- Claim C1, amended: when the upstream fetch and the JSON decode succeed and the insert of
`saveQuotation` fails (its 10ms deadline is exceeded, or the write fails), the persistence
error is logged between "Request init" and "Request end", the handler panics with that
error, the statement was sent once, no row is added, and the writer is left as it was:
neither a status nor a body is written. -/
theorem C1_insert_failure_is_logged_and_panics (env : HandlerEnv) (s : World)
    (res : UpstreamResponse) (body : Bytes) (q : Quotation) (e : GoError)
    (hreq : env.newRequestErr = none) (hdo : Do env = Except.ok res)
    (hread : ReadAll env res = Except.ok body)
    (hdec : Unmarshal env.scan body {} = (q, none))
    (hopen : env.openErr = none)
    (hins : (dbSaveTimeout ≤ env.insertElapsed ∧ e = deadlineExceeded) ∨
      (env.insertElapsed < dbSaveTimeout ∧ env.insertFault = some e)) :
    (getQuotationHandler env s).1 = Res.panic e ∧
    (getQuotationHandler env s).2.log = s.log ++ ["Request init", e, "Request end"] ∧
    (getQuotationHandler env s).2.issued = s.issued ++ [(insertQuery,
      [q.Usdbrl.Code, q.Usdbrl.Codein, q.Usdbrl.Name, q.Usdbrl.High, q.Usdbrl.Low,
       q.Usdbrl.VarBid, q.Usdbrl.PctChange, q.Usdbrl.Bid, q.Usdbrl.Ask,
       q.Usdbrl.Timestamp, q.Usdbrl.CreateDate])] ∧
    (getQuotationHandler env s).2.db = s.db ∧
    (getQuotationHandler env s).2.w = s.w := by
  have hres : insertResult env = some e := by
    rcases hins with ⟨h, rfl⟩ | ⟨h, hf⟩
    · simp [insertResult, h]
    · simp [insertResult, Nat.not_le.mpr h, hf]
  rw [handler_run_of_insert_error env s res body q e hreq hdo hread hdec hopen hres]
  exact ⟨rfl, rfl, rfl, rfl, rfl⟩

/-- The amended claim C1 at `Samples.slowInsertRequest`. -/
theorem C1_insert_failure_is_logged_and_panics_witness :
    (getQuotationHandler Samples.slowInsertRequest {}).1 = Res.panic deadlineExceeded ∧
    (getQuotationHandler Samples.slowInsertRequest {}).2.log =
      ["Request init", deadlineExceeded, "Request end"] ∧
    (getQuotationHandler Samples.slowInsertRequest {}).2.issued =
      [(insertQuery, ["", "", "", "", "", "", "", "5.43", "", "", ""])] ∧
    (getQuotationHandler Samples.slowInsertRequest {}).2.db = {} ∧
    (getQuotationHandler Samples.slowInsertRequest {}).2.w = {} :=
  C1_insert_failure_is_logged_and_panics Samples.slowInsertRequest {} Samples.bidResponse
    Samples.bidBody Samples.bidQuotation deadlineExceeded rfl rfl rfl (by decide) rfl
    (Or.inl ⟨by decide, rfl⟩)

/-- Claim C2, as stated, fails: during `Samples.slowUpstreamRequest` the upstream call misses
its 200ms deadline; the handler panics without writing a header, so the reply carries no
status at all, in particular no status outside 200..299, and `net/http` closes the
connection with nothing sent. -/
theorem C2_counterexample :
    Do Samples.slowUpstreamRequest = Except.error deadlineExceeded ∧
    (getQuotationHandler Samples.slowUpstreamRequest {}).1 = Res.panic deadlineExceeded ∧
    (getQuotationHandler Samples.slowUpstreamRequest {}).2.w.status = none ∧
    (serveRequest Samples.slowUpstreamRequest {}).2.replies = [{ status := none, body := [] }] := by
  refine ⟨rfl, by decide, by decide, by decide⟩

/-- Claim C2, amended: when the upstream call fails, that is when the 200ms deadline
arrives before the upstream API has answered, or the transport returns an error, or the
deadline arrives while the body is read, or reading the body returns an error, the error is
logged between "Request init" and "Request end", the handler panics with that error, and
nothing else happens: no status and no body are written to the writer, and no statement is
sent to the database. -/
theorem C2_fetch_failure_is_logged_and_panics (env : HandlerEnv) (s : World) (e : GoError)
    (hreq : env.newRequestErr = none)
    (hfail : (apiRequestTimeout ≤ env.fetchElapsed ∧ e = deadlineExceeded) ∨
      (env.fetchElapsed < apiRequestTimeout ∧ env.transport = Except.error e) ∨
      (∃ res : UpstreamResponse,
        env.fetchElapsed < apiRequestTimeout ∧ env.transport = Except.ok res ∧
        ((apiRequestTimeout ≤ env.fetchElapsed + res.readElapsed ∧ e = deadlineExceeded) ∨
         (env.fetchElapsed + res.readElapsed < apiRequestTimeout ∧
          res.read = Except.error e)))) :
    (getQuotationHandler env s).1 = Res.panic e ∧
    (getQuotationHandler env s).2.log = s.log ++ ["Request init", e, "Request end"] ∧
    (getQuotationHandler env s).2.w = s.w ∧
    (getQuotationHandler env s).2.issued = s.issued ∧
    (getQuotationHandler env s).2.db = s.db := by
  have hrun : getQuotationHandler env s =
      (Res.panic e, { s with log := s.log ++ ["Request init", e, "Request end"] }) := by
    rcases hfail with ⟨h, rfl⟩ | ⟨h, ht⟩ | ⟨res, h, ht, hr⟩
    · exact handler_run_of_fetch_error env s _ hreq (by simp [Do, h])
    · exact handler_run_of_fetch_error env s e hreq (by simp [Do, Nat.not_le.mpr h, ht])
    · have hdo : Do env = Except.ok res := by simp [Do, Nat.not_le.mpr h, ht]
      rcases hr with ⟨h2, rfl⟩ | ⟨h2, hr⟩
      · exact handler_run_of_read_error env s res _ hreq hdo (by simp [ReadAll, h2])
      · exact handler_run_of_read_error env s res e hreq hdo
          (by simp [ReadAll, Nat.not_le.mpr h2, hr])
  rw [hrun]
  exact ⟨rfl, rfl, rfl, rfl, rfl⟩

/-- The amended claim C2 at `Samples.slowUpstreamRequest`, where the deadline arrives before
the answer, and at `Samples.lateBodyRequest`, where it arrives while the body is read. -/
theorem C2_fetch_failure_is_logged_and_panics_witness :
    ((getQuotationHandler Samples.slowUpstreamRequest {}).1 = Res.panic deadlineExceeded ∧
      (getQuotationHandler Samples.slowUpstreamRequest {}).2.log =
        ["Request init", deadlineExceeded, "Request end"] ∧
      (getQuotationHandler Samples.slowUpstreamRequest {}).2.w = {} ∧
      (getQuotationHandler Samples.slowUpstreamRequest {}).2.issued = [] ∧
      (getQuotationHandler Samples.slowUpstreamRequest {}).2.db = {}) ∧
    ((getQuotationHandler Samples.lateBodyRequest {}).1 = Res.panic deadlineExceeded ∧
      (getQuotationHandler Samples.lateBodyRequest {}).2.log =
        ["Request init", deadlineExceeded, "Request end"] ∧
      (getQuotationHandler Samples.lateBodyRequest {}).2.w = {} ∧
      (getQuotationHandler Samples.lateBodyRequest {}).2.issued = [] ∧
      (getQuotationHandler Samples.lateBodyRequest {}).2.db = {}) :=
  ⟨C2_fetch_failure_is_logged_and_panics Samples.slowUpstreamRequest {} deadlineExceeded rfl
      (Or.inl ⟨by decide, rfl⟩),
    C2_fetch_failure_is_logged_and_panics Samples.lateBodyRequest {} deadlineExceeded rfl
      (Or.inr (Or.inr ⟨{ Samples.bidResponse with readElapsed := 100 }, by decide, rfl,
        Or.inl ⟨by decide, rfl⟩⟩))⟩

/-- Claim C3: when fetch, decode and persistence all succeed, the handler returns, the
status of the reply is 200 and its body is exactly the bytes read from the upstream
response, whatever record was decoded from them. -/
theorem C3_success_replies_200_with_raw_body (env : HandlerEnv) (s : World)
    (res : UpstreamResponse) (body : Bytes) (q : Quotation)
    (hfresh : s.w = {})
    (hreq : env.newRequestErr = none) (hdo : Do env = Except.ok res)
    (hread : ReadAll env res = Except.ok body)
    (hdec : Unmarshal env.scan body {} = (q, none))
    (hopen : env.openErr = none) (hins : insertResult env = none) :
    (getQuotationHandler env s).1 = Res.ok () ∧
    (getQuotationHandler env s).2.w.status = some 200 ∧
    (getQuotationHandler env s).2.w.body = body := by
  rw [handler_run_of_success env s res body q hreq hdo hread hdec hopen hins]
  simp [hfresh]

/-- Claim C3 at `Samples.goodRequest`. -/
theorem C3_success_replies_200_with_raw_body_witness :
    (getQuotationHandler Samples.goodRequest {}).1 = Res.ok () ∧
    (getQuotationHandler Samples.goodRequest {}).2.w.status = some 200 ∧
    (getQuotationHandler Samples.goodRequest {}).2.w.body = Samples.bidBody :=
  C3_success_replies_200_with_raw_body Samples.goodRequest {} Samples.bidResponse
    Samples.bidBody Samples.bidQuotation rfl rfl rfl rfl (by decide) rfl (by decide)

/-! # The server: persistence -/

/-- The run of `saveQuotation` once the database handle is open. -/
theorem saveQuotation_run (env : HandlerEnv) (c : Quotation) (s : World)
    (hopen : env.openErr = none) :
    saveQuotation env c s =
      match insertResult env with
      | some e =>
        (Res.panic e,
          { s with
            log := s.log ++ [e]
            issued := s.issued ++ [(insertQuery,
              [c.Usdbrl.Code, c.Usdbrl.Codein, c.Usdbrl.Name, c.Usdbrl.High, c.Usdbrl.Low,
               c.Usdbrl.VarBid, c.Usdbrl.PctChange, c.Usdbrl.Bid, c.Usdbrl.Ask,
               c.Usdbrl.Timestamp, c.Usdbrl.CreateDate])] })
      | none =>
        (Res.ok (),
          { s with
            issued := s.issued ++ [(insertQuery,
              [c.Usdbrl.Code, c.Usdbrl.Codein, c.Usdbrl.Name, c.Usdbrl.High, c.Usdbrl.Low,
               c.Usdbrl.VarBid, c.Usdbrl.PctChange, c.Usdbrl.Bid, c.Usdbrl.Ask,
               c.Usdbrl.Timestamp, c.Usdbrl.CreateDate])]
            db := s.db.exec insertQuery
              [c.Usdbrl.Code, c.Usdbrl.Codein, c.Usdbrl.Name, c.Usdbrl.High, c.Usdbrl.Low,
               c.Usdbrl.VarBid, c.Usdbrl.PctChange, c.Usdbrl.Bid, c.Usdbrl.Ask,
               c.Usdbrl.Timestamp, c.Usdbrl.CreateDate] }) := by
  cases hins : insertResult env <;>
    simp [saveQuotation, checkError, Println, Exec, Close, Go.deferring, Go.modify, Go.pure,
      Go.panic, Bind.bind, Go.bind, Pure.pure, hopen, hins]

/-- Claim C7: one call to `saveQuotation` on an open database sends exactly one statement,
the `INSERT` into `quotations` with eleven columns and eleven placeholders, and the i-th
column of its column list is bound to the same-named field of `c`: `Code` to
`c.Usdbrl.Code`, ..., `CreateDate` to `c.Usdbrl.CreateDate`.  When the insert succeeds,
exactly one row with these values is added. -/
theorem C7_saveQuotation_binds_each_column_to_its_field (env : HandlerEnv) (c : Quotation)
    (s : World) (hopen : env.openErr = none) :
    (saveQuotation env c s).2.issued = s.issued ++
      [(insertQuery,
        [c.Usdbrl.Code, c.Usdbrl.Codein, c.Usdbrl.Name, c.Usdbrl.High, c.Usdbrl.Low,
         c.Usdbrl.VarBid, c.Usdbrl.PctChange, c.Usdbrl.Bid, c.Usdbrl.Ask, c.Usdbrl.Timestamp,
         c.Usdbrl.CreateDate])] ∧
    insertQuery.insertColumns.zip
        [c.Usdbrl.Code, c.Usdbrl.Codein, c.Usdbrl.Name, c.Usdbrl.High, c.Usdbrl.Low,
         c.Usdbrl.VarBid, c.Usdbrl.PctChange, c.Usdbrl.Bid, c.Usdbrl.Ask, c.Usdbrl.Timestamp,
         c.Usdbrl.CreateDate] =
      [("Code", c.Usdbrl.Code), ("Codein", c.Usdbrl.Codein), ("Name", c.Usdbrl.Name),
         ("High", c.Usdbrl.High), ("Low", c.Usdbrl.Low), ("VarBid", c.Usdbrl.VarBid),
         ("PctChange", c.Usdbrl.PctChange), ("Bid", c.Usdbrl.Bid), ("Ask", c.Usdbrl.Ask),
         ("Timestamp", c.Usdbrl.Timestamp), ("CreateDate", c.Usdbrl.CreateDate)] ∧
    (insertResult env = none →
      (saveQuotation env c s).2.db.rows = s.db.rows ++
        [{ table := "quotations", values :=
          [("Code", c.Usdbrl.Code), ("Codein", c.Usdbrl.Codein), ("Name", c.Usdbrl.Name),
         ("High", c.Usdbrl.High), ("Low", c.Usdbrl.Low), ("VarBid", c.Usdbrl.VarBid),
         ("PctChange", c.Usdbrl.PctChange), ("Bid", c.Usdbrl.Bid), ("Ask", c.Usdbrl.Ask),
         ("Timestamp", c.Usdbrl.Timestamp), ("CreateDate", c.Usdbrl.CreateDate)] }]) := by
  refine ⟨?_, rfl, ?_⟩
  · rw [saveQuotation_run env c s hopen]
    cases insertResult env <;> rfl
  · intro hins
    rw [saveQuotation_run env c s hopen, hins]
    rfl

/-- Claim C7 at the record decoded from `Samples.bidBody`, with an insert that succeeds. -/
theorem C7_saveQuotation_binds_each_column_to_its_field_witness :
    (saveQuotation Samples.goodRequest Samples.bidQuotation {}).2.issued =
      [(insertQuery,
        ["", "", "", "", "", "", "", "5.43", "", "", ""])] ∧
    insertQuery.insertColumns.zip ["", "", "", "", "", "", "", "5.43", "", "", ""] =
      [("Code", ""), ("Codein", ""), ("Name", ""), ("High", ""), ("Low", ""),
         ("VarBid", ""), ("PctChange", ""), ("Bid", "5.43"), ("Ask", ""), ("Timestamp", ""),
         ("CreateDate", "")] ∧
    (saveQuotation Samples.goodRequest Samples.bidQuotation {}).2.db.rows =
      [{ table := "quotations", values :=
        [("Code", ""), ("Codein", ""), ("Name", ""), ("High", ""), ("Low", ""),
         ("VarBid", ""), ("PctChange", ""), ("Bid", "5.43"), ("Ask", ""), ("Timestamp", ""),
         ("CreateDate", "")] }] :=
  ⟨(C7_saveQuotation_binds_each_column_to_its_field Samples.goodRequest
      Samples.bidQuotation {} rfl).1,
    (C7_saveQuotation_binds_each_column_to_its_field Samples.goodRequest
      Samples.bidQuotation {} rfl).2.1,
    (C7_saveQuotation_binds_each_column_to_its_field Samples.goodRequest
      Samples.bidQuotation {} rfl).2.2 (by decide)⟩

/-! # The server: start-up -/

/-- The run of `createQuotationTable` when the handle opens and the statement succeeds. -/
theorem createQuotationTable_run (env : StartupEnv) (s : World)
    (hopen : env.openErr = none) (hexec : env.createTableErr = none) :
    createQuotationTable env s =
      (Res.ok (),
        { s with issued := s.issued ++ [(createTable, [])], db := s.db.exec createTable [] }) := by
  simp [createQuotationTable, checkError, Exec, Close, Go.deferring, Go.pure, Bind.bind,
    Go.bind, Pure.pure, hopen, hexec]

/-- Claim C8, as stated, fails: the table `createQuotationTable` creates in an empty
database has twelve columns, not thirteen, and none of them is `rowCreatedAt`. -/
theorem C8_counterexample :
    (createQuotationTable {} {}).1 = Res.ok () ∧
    (createQuotationTable {} {}).2.db.tables.map (fun t => (t.name, t.columns.length)) =
      [("quotations", 12)] ∧
    ∀ t ∈ (createQuotationTable {} {}).2.db.tables,
      sqlName "rowCreatedAt" ∉ t.columns.map (fun c => sqlName c.name) := by
  refine ⟨by decide, by decide, by decide⟩

/-- Claim C8, amended: in a database without a table `quotations`, `createQuotationTable`
creates exactly one table; it is named `quotations` and its columns are exactly, in order,
`ID INTEGER NOT NULL PRIMARY KEY AUTOINCREMENT`, `Code`, `Codein` and `Name` of type `TEXT`,
`High`, `Low`, `VarBid`, `PctChange`, `Bid` and `Ask` of type `FLOAT`, `Timestamp` of type
`TIMESTAMP` and `CreateDate` of type `DATETIME`, every one `NOT NULL` and none but `ID` a
key: the names of the claim, without regard to case, less `rowCreatedAt`. -/
theorem C8_created_table_has_twelve_columns (env : StartupEnv) (s : World)
    (hopen : env.openErr = none) (hexec : env.createTableErr = none)
    (hnew : ∀ t ∈ s.db.tables, sqlName t.name ≠ sqlName "quotations") :
    ∃ t : Table,
      (createQuotationTable env s).2.db.tables = s.db.tables ++ [t] ∧
      t.name = "quotations" ∧
      t.columns =
        [ { name := "ID", type := "INTEGER", notNull := true, primaryKey := true,
            autoincrement := true },
          { name := "Code", type := "TEXT", notNull := true },
          { name := "Codein", type := "TEXT", notNull := true },
          { name := "Name", type := "TEXT", notNull := true },
          { name := "High", type := "FLOAT", notNull := true },
          { name := "Low", type := "FLOAT", notNull := true },
          { name := "VarBid", type := "FLOAT", notNull := true },
          { name := "PctChange", type := "FLOAT", notNull := true },
          { name := "Bid", type := "FLOAT", notNull := true },
          { name := "Ask", type := "FLOAT", notNull := true },
          { name := "Timestamp", type := "TIMESTAMP", notNull := true },
          { name := "CreateDate", type := "DATETIME", notNull := true } ] ∧
      t.columns.map (fun c => sqlName c.name) =
        ["id", "code", "codein", "name", "high", "low", "varBid", "pctChange", "bid", "ask",
         "timestamp", "createDate"].map sqlName ∧
      t.columns.map (fun c => c.type) =
        ["INTEGER", "TEXT", "TEXT", "TEXT", "FLOAT", "FLOAT", "FLOAT", "FLOAT", "FLOAT",
         "FLOAT", "TIMESTAMP", "DATETIME"] ∧
      t.columns.map (fun c => c.primaryKey && c.autoincrement) =
        [true, false, false, false, false, false, false, false, false, false, false, false] ∧
      (∀ c ∈ t.columns, c.notNull = true) ∧
      sqlName "rowCreatedAt" ∉ t.columns.map (fun c => sqlName c.name) := by
  have hany : s.db.tables.any (fun x => sqlName x.name = sqlName "quotations") = false := by
    rw [List.any_eq_false]
    intro t ht
    simpa using hnew t ht
  have hrun : (createQuotationTable env s).2.db = s.db.exec createTable [] := by
    rw [createQuotationTable_run env s hopen hexec]
  have hdb : s.db.exec createTable [] =
      { s.db with tables := s.db.tables ++
        [match createTable with
         | Statement.createTableIfNotExists t => t
         | Statement.insertInto _ _ _ => { name := "", columns := [] }] } := by
    simp only [Database.exec, createTable]
    rw [if_neg]
    simpa using hany
  rw [hrun, hdb]
  exact ⟨_, rfl, rfl, rfl, by decide, rfl, rfl, by decide, by decide⟩

/-- The amended claim C8 in the empty database. -/
theorem C8_created_table_has_twelve_columns_witness :
    ∃ t : Table,
      (createQuotationTable {} {}).2.db.tables = [t] ∧
      t.name = "quotations" ∧
      t.columns =
        [ { name := "ID", type := "INTEGER", notNull := true, primaryKey := true,
            autoincrement := true },
          { name := "Code", type := "TEXT", notNull := true },
          { name := "Codein", type := "TEXT", notNull := true },
          { name := "Name", type := "TEXT", notNull := true },
          { name := "High", type := "FLOAT", notNull := true },
          { name := "Low", type := "FLOAT", notNull := true },
          { name := "VarBid", type := "FLOAT", notNull := true },
          { name := "PctChange", type := "FLOAT", notNull := true },
          { name := "Bid", type := "FLOAT", notNull := true },
          { name := "Ask", type := "FLOAT", notNull := true },
          { name := "Timestamp", type := "TIMESTAMP", notNull := true },
          { name := "CreateDate", type := "DATETIME", notNull := true } ] ∧
      t.columns.map (fun c => sqlName c.name) =
        ["id", "code", "codein", "name", "high", "low", "varBid", "pctChange", "bid", "ask",
         "timestamp", "createDate"].map sqlName ∧
      t.columns.map (fun c => c.type) =
        ["INTEGER", "TEXT", "TEXT", "TEXT", "FLOAT", "FLOAT", "FLOAT", "FLOAT", "FLOAT",
         "FLOAT", "TIMESTAMP", "DATETIME"] ∧
      t.columns.map (fun c => c.primaryKey && c.autoincrement) =
        [true, false, false, false, false, false, false, false, false, false, false, false] ∧
      (∀ c ∈ t.columns, c.notNull = true) ∧
      sqlName "rowCreatedAt" ∉ t.columns.map (fun c => sqlName c.name) :=
  C8_created_table_has_twelve_columns {} {} rfl rfl (by simp)

/-- Claim C9 at its failing input: when port 8080 is taken, `http.ListenAndServe` returns
an error, `main` returns normally and nothing at all is logged; and when `w.Write` returns
an error during `Samples.goodRequest`, the handler returns normally and only the two
request lines are logged. -/
theorem C9_listen_and_write_errors_are_dropped :
    (main { listenErr := some "listen tcp :8080: bind: address already in use" } [] {}).1 =
      Res.ok () ∧
    (main { listenErr := some "listen tcp :8080: bind: address already in use" } [] {}).2.log =
      [] ∧
    (getQuotationHandler
      { Samples.goodRequest with writeErr := some "write tcp: broken pipe" } {}).1 = Res.ok () ∧
    (getQuotationHandler
      { Samples.goodRequest with writeErr := some "write tcp: broken pipe" } {}).2.log =
      ["Request init", "Request end"] := by
  refine ⟨by decide, by decide, by decide, by decide⟩

/-! # The server: decoding -/

/-- Reading a field after an assignment. -/
theorem UsdbrlFields.get_set (u : UsdbrlFields) (i j : Nat) (v : String) (hi : i < 11)
    (hj : j < 11) : (u.set i v).get j = if j = i then v else u.get j := by
  interval_cases i <;> interval_cases j <;> rfl

/-- Two records with the same eleven fields are the same record. -/
theorem UsdbrlFields.eq_of_get (u v : UsdbrlFields) (h : ∀ j, j < 11 → u.get j = v.get j) :
    u = v := by
  have h0 := h 0 (by decide)
  have h1 := h 1 (by decide)
  have h2 := h 2 (by decide)
  have h3 := h 3 (by decide)
  have h4 := h 4 (by decide)
  have h5 := h 5 (by decide)
  have h6 := h 6 (by decide)
  have h7 := h 7 (by decide)
  have h8 := h 8 (by decide)
  have h9 := h 9 (by decide)
  have h10 := h 10 (by decide)
  cases u
  cases v
  simp only [UsdbrlFields.get] at h0 h1 h2 h3 h4 h5 h6 h7 h8 h9 h10
  simp [h0, h1, h2, h3, h4, h5, h6, h7, h8, h9, h10]

/-- Every member of the documented payload carries the string of its field. -/
theorem carries_of_mem_documented (u : UsdbrlFields) (kv : String × Value)
    (h : kv ∈ documentedMembers u) : Carries u kv := by
  simp only [documentedMembers, List.mem_cons, List.mem_singleton, List.not_mem_nil,
    or_false] at h
  rcases h with rfl | rfl | rfl | rfl | rfl | rfl | rfl | rfl | rfl | rfl | rfl
  · exact ⟨0, by decide, show fieldIndex usdbrlTags "code" = some 0 by decide, rfl⟩
  · exact ⟨1, by decide, show fieldIndex usdbrlTags "codein" = some 1 by decide, rfl⟩
  · exact ⟨2, by decide, show fieldIndex usdbrlTags "name" = some 2 by decide, rfl⟩
  · exact ⟨3, by decide, show fieldIndex usdbrlTags "high" = some 3 by decide, rfl⟩
  · exact ⟨4, by decide, show fieldIndex usdbrlTags "low" = some 4 by decide, rfl⟩
  · exact ⟨5, by decide, show fieldIndex usdbrlTags "varBid" = some 5 by decide, rfl⟩
  · exact ⟨6, by decide, show fieldIndex usdbrlTags "pctChange" = some 6 by decide, rfl⟩
  · exact ⟨7, by decide, show fieldIndex usdbrlTags "bid" = some 7 by decide, rfl⟩
  · exact ⟨8, by decide, show fieldIndex usdbrlTags "ask" = some 8 by decide, rfl⟩
  · exact ⟨9, by decide, show fieldIndex usdbrlTags "timestamp" = some 9 by decide, rfl⟩
  · exact ⟨10, by decide, show fieldIndex usdbrlTags "create_date" = some 10 by decide, rfl⟩

/-- Decoding one carried member: the field it selects takes the string of `u`. -/
theorem decodeUsdbrlMember_of_carries (u : UsdbrlFields)
    (st : UsdbrlFields × Option GoError) (kv : String × Value) (i : Nat)
    (hidx : fieldIndex usdbrlTags kv.1 = some i) (hval : kv.2 = Value.str (u.get i)) :
    decodeUsdbrlMember st kv = (st.1.set i (u.get i), st.2) := by
  simp [decodeUsdbrlMember, hidx, hval]

/-- Decoding carried members reports no new error. -/
theorem foldl_decode_error (u : UsdbrlFields) (ms : List (String × Value))
    (hms : ∀ kv ∈ ms, Carries u kv) (st : UsdbrlFields × Option GoError) :
    (ms.foldl decodeUsdbrlMember st).2 = st.2 := by
  induction ms generalizing st with
  | nil => rfl
  | cons kv rest ih =>
    obtain ⟨i, _, hidx, hval⟩ := hms kv (List.mem_cons_self _ _)
    rw [List.foldl_cons, ih (fun x hx => hms x (List.mem_cons_of_mem _ hx)),
      decodeUsdbrlMember_of_carries u st kv i hidx hval]

/-- A field that already holds the string of `u` keeps it while carried members are decoded. -/
theorem foldl_decode_keeps (u : UsdbrlFields) (ms : List (String × Value))
    (hms : ∀ kv ∈ ms, Carries u kv) (st : UsdbrlFields × Option GoError) (j : Nat)
    (hj : j < 11) (hst : st.1.get j = u.get j) :
    (ms.foldl decodeUsdbrlMember st).1.get j = u.get j := by
  induction ms generalizing st with
  | nil => exact hst
  | cons kv rest ih =>
    obtain ⟨i, hi, hidx, hval⟩ := hms kv (List.mem_cons_self _ _)
    rw [List.foldl_cons]
    apply ih (fun x hx => hms x (List.mem_cons_of_mem _ hx))
    rw [decodeUsdbrlMember_of_carries u st kv i hidx hval]
    show (st.1.set i (u.get i)).get j = u.get j
    rw [UsdbrlFields.get_set _ _ _ _ hi hj]
    split
    · next h => rw [h]
    · exact hst

/-- A field selected by one of the carried members holds the string of `u` in the end. -/
theorem foldl_decode_sets (u : UsdbrlFields) (ms : List (String × Value))
    (hms : ∀ kv ∈ ms, Carries u kv) (st : UsdbrlFields × Option GoError) (j : Nat)
    (hj : j < 11) (hmem : ∃ kv ∈ ms, fieldIndex usdbrlTags kv.1 = some j) :
    (ms.foldl decodeUsdbrlMember st).1.get j = u.get j := by
  induction ms generalizing st with
  | nil => simp at hmem
  | cons kv rest ih =>
    obtain ⟨i, hi, hidx, hval⟩ := hms kv (List.mem_cons_self _ _)
    have hrest : ∀ x ∈ rest, Carries u x := fun x hx => hms x (List.mem_cons_of_mem _ hx)
    rw [List.foldl_cons]
    by_cases hij : i = j
    · apply foldl_decode_keeps u rest hrest _ j hj
      rw [decodeUsdbrlMember_of_carries u st kv i hidx hval]
      show (st.1.set i (u.get i)).get j = u.get j
      rw [UsdbrlFields.get_set _ _ _ _ hi hj, if_pos hij.symm, hij]
    · apply ih hrest
      obtain ⟨x, hx, hxj⟩ := hmem
      rcases List.mem_cons.mp hx with rfl | hx
      · rw [hidx] at hxj
        exact absurd (Option.some.inj hxj) hij
      · exact ⟨x, hx, hxj⟩

/-- Decoding the members of a documented payload, in any order, yields `u` and no error. -/
theorem foldl_decode_documented (u : UsdbrlFields) (ms : List (String × Value))
    (hperm : ms.Perm (documentedMembers u)) (st : UsdbrlFields × Option GoError) :
    ms.foldl decodeUsdbrlMember st = (u, st.2) := by
  have hms : ∀ kv ∈ ms, Carries u kv := fun kv hkv =>
    carries_of_mem_documented u kv (hperm.mem_iff.mp hkv)
  have herr := foldl_decode_error u ms hms st
  have hfields : (ms.foldl decodeUsdbrlMember st).1 = u := by
    apply UsdbrlFields.eq_of_get
    intro j hj
    apply foldl_decode_sets u ms hms st j hj
    have hdoc : ∃ kv ∈ documentedMembers u, fieldIndex usdbrlTags kv.1 = some j := by
      interval_cases j
      · exact ⟨("code", Value.str u.Code), by simp [documentedMembers],
          show fieldIndex usdbrlTags "code" = some 0 by decide⟩
      · exact ⟨("codein", Value.str u.Codein), by simp [documentedMembers],
          show fieldIndex usdbrlTags "codein" = some 1 by decide⟩
      · exact ⟨("name", Value.str u.Name), by simp [documentedMembers],
          show fieldIndex usdbrlTags "name" = some 2 by decide⟩
      · exact ⟨("high", Value.str u.High), by simp [documentedMembers],
          show fieldIndex usdbrlTags "high" = some 3 by decide⟩
      · exact ⟨("low", Value.str u.Low), by simp [documentedMembers],
          show fieldIndex usdbrlTags "low" = some 4 by decide⟩
      · exact ⟨("varBid", Value.str u.VarBid), by simp [documentedMembers],
          show fieldIndex usdbrlTags "varBid" = some 5 by decide⟩
      · exact ⟨("pctChange", Value.str u.PctChange), by simp [documentedMembers],
          show fieldIndex usdbrlTags "pctChange" = some 6 by decide⟩
      · exact ⟨("bid", Value.str u.Bid), by simp [documentedMembers],
          show fieldIndex usdbrlTags "bid" = some 7 by decide⟩
      · exact ⟨("ask", Value.str u.Ask), by simp [documentedMembers],
          show fieldIndex usdbrlTags "ask" = some 8 by decide⟩
      · exact ⟨("timestamp", Value.str u.Timestamp), by simp [documentedMembers],
          show fieldIndex usdbrlTags "timestamp" = some 9 by decide⟩
      · exact ⟨("create_date", Value.str u.CreateDate), by simp [documentedMembers],
          show fieldIndex usdbrlTags "create_date" = some 10 by decide⟩
    obtain ⟨kv, hkv, hidx⟩ := hdoc
    exact ⟨kv, hperm.mem_iff.mpr hkv, hidx⟩
  exact Prod.ext hfields herr

/-- Claim C6: for every payload of the documented shape, that is an object whose member
`"USDBRL"` is an object holding eleven strings under the names `code`, `codein`, `name`,
`high`, `low`, `varBid`, `pctChange`, `bid`, `ask`, `timestamp` and `create_date`, in any
order, decoding reports no error and yields the record whose eleven fields are exactly
those strings, whatever the record held before. -/
theorem C6_decode_documented_payload_verbatim (scan : Bytes → Option Value) (data : Bytes)
    (u : UsdbrlFields) (ms : List (String × Value)) (q0 : Quotation)
    (hperm : ms.Perm (documentedMembers u))
    (hscan : scan data = some (Value.obj [("USDBRL", Value.obj ms)])) :
    Unmarshal scan data q0 = ({ Usdbrl := u }, none) := by
  have hkey : fieldIndex quotationTags "USDBRL" = some 0 := by decide
  simp only [Unmarshal, hscan, List.foldl_cons, List.foldl_nil, decodeQuotationMember, hkey,
    foldl_decode_documented u ms hperm]

/-- Claim C6 at the payload of `Samples.fullRecord`, its members in reverse order. -/
theorem C6_decode_documented_payload_verbatim_witness :
    Unmarshal (Samples.scanOnly Samples.fullBody Samples.fullValue) Samples.fullBody {} =
      ({ Usdbrl := Samples.fullRecord }, none) :=
  C6_decode_documented_payload_verbatim (Samples.scanOnly Samples.fullBody Samples.fullValue)
    Samples.fullBody Samples.fullRecord (documentedMembers Samples.fullRecord).reverse {}
    (List.reverse_perm _) (by simp [Samples.scanOnly, Samples.fullValue])

/-- A name that does not fold to the runes of `USDBRL` selects no field of `Quotation`. -/
theorem fieldIndex_quotationTags_eq_none (key : String)
    (h : foldName key ≠ foldName "USDBRL") : fieldIndex quotationTags key = none := by
  have hne : ¬ ("USDBRL" = key) := fun hk => h (by rw [← hk])
  have h2 : ¬ (foldName "USDBRL" = foldName key) := fun hk => h hk.symm
  simp [fieldIndex, quotationTags, List.indexOf?, List.findIdx?_cons, hne, h2]

/-- Members none of which selects the field of `Quotation` leave the record alone. -/
theorem foldl_decodeQuotationMember_of_no_match (ms : List (String × Value))
    (h : ∀ kv ∈ ms, foldName kv.1 ≠ foldName "USDBRL") (st : Quotation × Option GoError) :
    ms.foldl decodeQuotationMember st = st := by
  induction ms generalizing st with
  | nil => rfl
  | cons kv rest ih =>
    rw [List.foldl_cons, ih (fun x hx => h x (List.mem_cons_of_mem _ hx))]
    simp [decodeQuotationMember,
      fieldIndex_quotationTags_eq_none kv.1 (h kv (List.mem_cons_self _ _))]

/-- The handler never reads `res.StatusCode`. -/
theorem handler_ignores_status (env : HandlerEnv) (s : World) (res : UpstreamResponse)
    (code : Nat) (hres : env.transport = Except.ok res) :
    getQuotationHandler { env with transport := Except.ok { res with statusCode := code } } s =
      getQuotationHandler env s := by
  unfold getQuotationHandler Do
  by_cases h : apiRequestTimeout ≤ env.fetchElapsed
  · simp [h]
  · simp [h, hres, ReadAll, saveQuotation, insertResult]

/-- Claim C10, as stated, fails in two ways.  A member name is matched without regard to
case: the body `{"usdbrl":{"bid":"5.43"}}` has no member named `USDBRL`, yet the record
passed to `saveQuotation` has `Bid = "5.43"`, and the body `{"usdbrl":5}` has none either,
yet a decode error is reported and the handler panics before `saveQuotation`.  And the body
`{}` is not returned with status 200 when the insert misses its deadline: the handler
panics and no row is inserted. -/
theorem C10_counterexample :
    ((∀ kv ∈ Samples.lowerCaseMembers, kv.1 ≠ "USDBRL") ∧
      (getQuotationHandler Samples.lowerCaseRequest {}).2.issued =
        [(insertQuery, ["", "", "", "", "", "", "", "5.43", "", "", ""])]) ∧
    ((∀ kv ∈ Samples.lowerCaseNumberMembers, kv.1 ≠ "USDBRL") ∧
      (Unmarshal Samples.lowerCaseNumberRequest.scan Samples.lowerCaseNumberBody {}).2 ≠ none ∧
      (getQuotationHandler Samples.lowerCaseNumberRequest {}).1.returned = false ∧
      (getQuotationHandler Samples.lowerCaseNumberRequest {}).2.issued = [] ∧
      (getQuotationHandler Samples.lowerCaseNumberRequest {}).2.w.status = none) ∧
    ((Unmarshal Samples.emptyObjectSlowInsertRequest.scan Samples.emptyObjectBody {}).2 = none ∧
      (getQuotationHandler Samples.emptyObjectSlowInsertRequest {}).1 =
        Res.panic deadlineExceeded ∧
      (getQuotationHandler Samples.emptyObjectSlowInsertRequest {}).2.db.rows = [] ∧
      (getQuotationHandler Samples.emptyObjectSlowInsertRequest {}).2.w.status = none) := by
  refine ⟨⟨by decide, by decide⟩, ⟨by decide, by decide, by decide, by decide, by decide⟩,
    ⟨by decide, by decide, by decide, by decide⟩⟩

/-- Claim C10, amended: when the upstream body is a JSON object none of whose member names
is `USDBRL` without regard to case, decoding reports no error and leaves all eleven fields
empty; `saveQuotation` is called with that record, and when the insert succeeds a row of
eleven empty strings is added and the body is returned with status 200.  The run of the
handler is the same for every upstream status code. -/
theorem C10_object_without_usdbrl_inserts_empty_row (env : HandlerEnv) (s : World)
    (res : UpstreamResponse) (body : Bytes) (ms : List (String × Value))
    (hfresh : s.w = {})
    (hreq : env.newRequestErr = none) (hdo : Do env = Except.ok res)
    (hread : ReadAll env res = Except.ok body)
    (hscan : env.scan body = some (Value.obj ms))
    (hno : ∀ kv ∈ ms, foldName kv.1 ≠ foldName "USDBRL")
    (hopen : env.openErr = none) (hins : insertResult env = none) :
    Unmarshal env.scan body {} = ({}, none) ∧
    (getQuotationHandler env s).1 = Res.ok () ∧
    (getQuotationHandler env s).2.issued =
      s.issued ++ [(insertQuery, ["", "", "", "", "", "", "", "", "", "", ""])] ∧
    (getQuotationHandler env s).2.db.rows = s.db.rows ++
      [{ table := "quotations",
         values := [("Code", ""), ("Codein", ""), ("Name", ""), ("High", ""), ("Low", ""),
           ("VarBid", ""), ("PctChange", ""), ("Bid", ""), ("Ask", ""), ("Timestamp", ""),
           ("CreateDate", "")] }] ∧
    (getQuotationHandler env s).2.w.status = some 200 ∧
    (getQuotationHandler env s).2.w.body = body ∧
    ∀ code : Nat,
      getQuotationHandler
        { env with transport := Except.ok { res with statusCode := code } } s =
      getQuotationHandler env s := by
  have hdec : Unmarshal env.scan body {} = ({}, none) := by
    simp only [Unmarshal, hscan]
    exact foldl_decodeQuotationMember_of_no_match ms hno _
  have htransport : env.transport = Except.ok res := by
    unfold Do at hdo
    split at hdo
    · cases hdo
    · exact hdo
  refine ⟨hdec, ?_, ?_, ?_, ?_, ?_, fun code => handler_ignores_status env s res code htransport⟩
  all_goals rw [handler_run_of_success env s res body {} hreq hdo hread hdec hopen hins]
  all_goals first | rfl | simp [hfresh]

/-- The amended claim C10 at `Samples.emptyObjectRequest`, a `404` with the body `{}`,
compared with the same request answered by a `500`. -/
theorem C10_object_without_usdbrl_inserts_empty_row_witness :
    Unmarshal Samples.emptyObjectRequest.scan Samples.emptyObjectBody {} = ({}, none) ∧
    (getQuotationHandler Samples.emptyObjectRequest {}).1 = Res.ok () ∧
    (getQuotationHandler Samples.emptyObjectRequest {}).2.issued =
      [(insertQuery, ["", "", "", "", "", "", "", "", "", "", ""])] ∧
    (getQuotationHandler Samples.emptyObjectRequest {}).2.db.rows =
      [{ table := "quotations",
         values := [("Code", ""), ("Codein", ""), ("Name", ""), ("High", ""), ("Low", ""),
           ("VarBid", ""), ("PctChange", ""), ("Bid", ""), ("Ask", ""), ("Timestamp", ""),
           ("CreateDate", "")] }] ∧
    (getQuotationHandler Samples.emptyObjectRequest {}).2.w.status = some 200 ∧
    (getQuotationHandler Samples.emptyObjectRequest {}).2.w.body = Samples.emptyObjectBody ∧
    getQuotationHandler
        { Samples.emptyObjectRequest with
          transport := Except.ok { Samples.emptyObjectResponse with statusCode := 500 } } {} =
      getQuotationHandler Samples.emptyObjectRequest {} :=
  have h := C10_object_without_usdbrl_inserts_empty_row Samples.emptyObjectRequest {}
    Samples.emptyObjectResponse Samples.emptyObjectBody [] rfl rfl rfl rfl rfl
    (by simp) rfl (by decide)
  ⟨h.1, h.2.1, h.2.2.1, h.2.2.2.1, h.2.2.2.2.1, h.2.2.2.2.2.1, h.2.2.2.2.2.2 500⟩

end Server

/-! # The client -/

namespace Client

open GoRuntime Json

/-- The run of `main` when the call to the server fails. -/
theorem main_run_of_call_error (env : Env) (s : World) (e : GoError)
    (hreq : env.newRequestErr = none) (hdo : Do env = Except.error e) :
    main env s = (Res.panic e, { s with log := s.log ++ [e] }) := by
  simp [main, checkError, Println, Go.modify, Go.panic, Bind.bind, Go.bind, Pure.pure, Go.pure,
    hreq, hdo]

/-- The run of `main` when the server answers and reading the body fails. -/
theorem main_run_of_read_error (env : Env) (s : World) (res : ServerResponse) (e : GoError)
    (hreq : env.newRequestErr = none) (hdo : Do env = Except.ok res)
    (hread : ReadAll env res = Except.error e) :
    main env s = (Res.panic e, { s with log := s.log ++ [e] }) := by
  simp [main, checkError, Println, Close, Go.deferring, Go.modify, Go.panic, Bind.bind,
    Go.bind, Pure.pure, Go.pure, hreq, hdo, hread]

/-- The run of `main` once the answer of the server is decoded. -/
theorem main_run_of_decoded (env : Env) (s : World) (res : ServerResponse) (body : Bytes)
    (q : Quotation) (hreq : env.newRequestErr = none) (hdo : Do env = Except.ok res)
    (hread : ReadAll env res = Except.ok body)
    (hdec : Unmarshal env.scan body {} = (q, none)) :
    main env s = saveInFile env q s := by
  simp [main, checkError, Close, Go.deferring, Go.pure, Bind.bind, Go.bind, Pure.pure,
    hreq, hdo, hread, hdec]

/-- Writing at offset 0 into a file without bytes leaves exactly the bytes written. -/
theorem writeAt_nil_zero (data : Bytes) : writeAt [] 0 data = data := by
  simp [writeAt]

/-- Claim C4: when a run of the client returns normally, the file `cotacao.txt` holds
exactly the bytes of the text `Dólar: {b}`, where `b` is the bid decoded from the answer of
the server, and nothing else, whatever the file held before; no other file is touched. -/
theorem C4_artifact_is_exactly_the_bid_line (env : Env) (s : World) (res : ServerResponse)
    (body : Bytes) (q : Quotation) (hdo : Do env = Except.ok res)
    (hread : ReadAll env res = Except.ok body)
    (hdec : Unmarshal env.scan body {} = (q, none))
    (hrun : (main env s).1 = Res.ok ()) :
    (main env s).2.files resultFileName =
      some (utf8 ("Dólar: \x7b" ++ q.Usdbrl.Bid ++ "\x7d")) ∧
    ∀ p : String, p ≠ resultFileName → (main env s).2.files p = s.files p := by
  have hreq : env.newRequestErr = none := by
    cases h : env.newRequestErr with
    | none => rfl
    | some e =>
      simp [main, checkError, Println, Go.modify, Go.panic, Bind.bind, Go.bind, h] at hrun
  rw [main_run_of_decoded env s res body q hreq hdo hread hdec] at hrun ⊢
  cases hc : env.createErr with
  | some e =>
    simp [saveInFile, checkError, Create, Println, Go.modify, Go.panic, Bind.bind, Go.bind,
      hc] at hrun
  | none =>
    cases hw : env.writeFault with
    | some f =>
      simp [saveInFile, checkError, Create, WriteString, Close, Println, Go.deferring,
        Go.modify, Go.panic, Go.pure, Bind.bind, Go.bind, Pure.pure, hc, hw] at hrun
    | none =>
      constructor
      · simp [saveInFile, checkError, Create, WriteString, Close, Go.deferring, Go.pure,
          Bind.bind, Go.bind, Pure.pure, hc, hw, writeFile, writeAt_nil_zero, Sprintf]
      · intro p hp
        simp [saveInFile, checkError, Create, WriteString, Close, Go.deferring, Go.pure,
          Bind.bind, Go.bind, Pure.pure, hc, hw, writeFile, hp]

/-- Claim C4 with the bid `5.43`, over a file that held the longer line of an earlier run,
`Dólar: {5.1025}`: none of its bytes is left. -/
theorem C4_artifact_is_exactly_the_bid_line_witness :
    Samples.oldArtifact.files resultFileName = some (utf8 "Dólar: \x7b5.1025\x7d") ∧
    (main Samples.goodRun Samples.oldArtifact).1 = Res.ok () ∧
    (main Samples.goodRun Samples.oldArtifact).2.files resultFileName =
      some (utf8 "Dólar: \x7b5.43\x7d") ∧
    (main Samples.goodRun Samples.oldArtifact).2.files "notes.txt" =
      Samples.oldArtifact.files "notes.txt" :=
  ⟨by decide, by decide,
    (C4_artifact_is_exactly_the_bid_line Samples.goodRun Samples.oldArtifact
      Samples.serverResponse Samples.bidBody { Usdbrl := { Bid := "5.43" } } rfl rfl
      (by decide) (by decide)).1,
    (C4_artifact_is_exactly_the_bid_line Samples.goodRun Samples.oldArtifact
      Samples.serverResponse Samples.bidBody { Usdbrl := { Bid := "5.43" } } rfl rfl
      (by decide) (by decide)).2 "notes.txt" (by decide)⟩

/-- Claim C5: when the call to the server fails, that is when the 300ms deadline arrives
before the server has answered, or the transport returns an error, or the deadline arrives
while the body is read, or reading the body returns an error, the error is logged, `main`
ends in a panic with that error, and the file system is left as it was: `cotacao.txt` is
neither created nor modified, whatever `os.Create` and `WriteString` would have answered. -/
theorem C5_call_failure_leaves_artifact_untouched (env : Env) (s : World) (e : GoError)
    (hreq : env.newRequestErr = none)
    (hfail : (requestTimeout ≤ env.callElapsed ∧ e = deadlineExceeded) ∨
      (env.callElapsed < requestTimeout ∧ env.transport = Except.error e) ∨
      (∃ res : ServerResponse,
        env.callElapsed < requestTimeout ∧ env.transport = Except.ok res ∧
        ((requestTimeout ≤ env.callElapsed + res.readElapsed ∧ e = deadlineExceeded) ∨
         (env.callElapsed + res.readElapsed < requestTimeout ∧
          res.read = Except.error e)))) :
    (main env s).1 = Res.panic e ∧
    (main env s).2.log = s.log ++ [e] ∧
    (main env s).2.files = s.files := by
  have hrun : main env s = (Res.panic e, { s with log := s.log ++ [e] }) := by
    rcases hfail with ⟨h, rfl⟩ | ⟨h, ht⟩ | ⟨res, h, ht, hr⟩
    · exact main_run_of_call_error env s _ hreq (by simp [Do, h])
    · exact main_run_of_call_error env s e hreq (by simp [Do, Nat.not_le.mpr h, ht])
    · have hdo : Do env = Except.ok res := by simp [Do, Nat.not_le.mpr h, ht]
      rcases hr with ⟨h2, rfl⟩ | ⟨h2, hr⟩
      · exact main_run_of_read_error env s res _ hreq hdo (by simp [ReadAll, h2])
      · exact main_run_of_read_error env s res e hreq hdo
          (by simp [ReadAll, Nat.not_le.mpr h2, hr])
  rw [hrun]
  exact ⟨rfl, rfl, rfl⟩

/-- Claim C5 with a server that needs 500ms to answer, and with a server that answers after
200ms and whose body needs another 150ms. -/
theorem C5_call_failure_leaves_artifact_untouched_witness :
    ((main Samples.slowServerRun Samples.oldArtifact).1 = Res.panic deadlineExceeded ∧
      (main Samples.slowServerRun Samples.oldArtifact).2.log = [deadlineExceeded] ∧
      (main Samples.slowServerRun Samples.oldArtifact).2.files = Samples.oldArtifact.files) ∧
    ((main Samples.lateBodyRun Samples.oldArtifact).1 = Res.panic deadlineExceeded ∧
      (main Samples.lateBodyRun Samples.oldArtifact).2.log = [deadlineExceeded] ∧
      (main Samples.lateBodyRun Samples.oldArtifact).2.files = Samples.oldArtifact.files) :=
  ⟨C5_call_failure_leaves_artifact_untouched Samples.slowServerRun Samples.oldArtifact
      deadlineExceeded rfl (Or.inl ⟨by decide, rfl⟩),
    C5_call_failure_leaves_artifact_untouched Samples.lateBodyRun Samples.oldArtifact
      deadlineExceeded rfl
      (Or.inr (Or.inr ⟨{ Samples.serverResponse with readElapsed := 150 }, by decide, rfl,
        Or.inl ⟨by decide, rfl⟩⟩))⟩

end Client
